import Mathlib

/-!
Verification of the LIDAR scanning and obstacle-ranging engine of
`src/lidar.rs` (bevy_turtlebot4_testbed).

The embedding models the `f32` arithmetic of the source over `ℝ`.  The
per-sweep body of `lidar_scanning_system` (lines 178-255 of `src/lidar.rs`)
is a pure function of the sensor configuration, the sensor pose, the list of
obstacle positions and the Gaussian noise samples actually drawn; the random
samples are supplied as an oracle `noise : ℕ → ℝ` giving the sample that
`rand_distr` would return for ray `i`.  `f32::INFINITY`, used by the
`LaserScan.ranges` encoding, is modelled as `(⊤ : WithTop ℝ)`.
-/

noncomputable section

/-- Three-component vector over the reals, modelling `bevy`'s `Vec3`
(whose components are `f32`). -/
structure Vec3 where
  x : ℝ
  y : ℝ
  z : ℝ

instance : Sub Vec3 := ⟨fun v w => ⟨v.x - w.x, v.y - w.y, v.z - w.z⟩⟩

@[simp] lemma Vec3.sub_def (v w : Vec3) : v - w = ⟨v.x - w.x, v.y - w.y, v.z - w.z⟩ := rfl

/-- `Vec3::dot`: sum of componentwise products. -/
def Vec3.dot (v w : Vec3) : ℝ := v.x * w.x + v.y * w.y + v.z * w.z

/-- `Vec3::length`: Euclidean norm, the square root of the self dot product. -/
def Vec3.length (v : Vec3) : ℝ := Real.sqrt (v.dot v)

/-- `Vec3::normalize`: the vector divided by its length. -/
def Vec3.normalize (v : Vec3) : Vec3 := ⟨v.x / v.length, v.y / v.length, v.z / v.length⟩

/-- `Vec3::ZERO`. -/
def Vec3.zero : Vec3 := ⟨0, 0, 0⟩

/-- Modelled from the spec: `bevy`'s `Timer` in `TimerMode::Repeating`, whose
implementation is not part of this repository.  Per the spec (section 4.1), a
monotonic accumulator increases by `dt` each tick; when it reaches the
configured period it fires exactly once and resets, any overshoot carrying
over as already-accumulated time. -/
structure RepeatingTimer where
  duration : ℝ
  elapsed : ℝ

/-- Modelled from the spec: `Timer::tick` followed by `Timer::just_finished`.
Returns the advanced timer and whether it fired on this tick. -/
def RepeatingTimer.tick (t : RepeatingTimer) (dt : ℝ) : RepeatingTimer × Bool :=
  if t.duration ≤ t.elapsed + dt then (⟨t.duration, t.elapsed + dt - t.duration⟩, true)
  else (⟨t.duration, t.elapsed + dt⟩, false)

/-- Run a repeating timer through a list of tick deltas, counting how many
ticks fired. -/
def RepeatingTimer.run : RepeatingTimer → List ℝ → RepeatingTimer × ℕ
  | t, [] => (t, 0)
  | t, dt :: rest =>
    ((RepeatingTimer.run (t.tick dt).1 rest).1,
      (if (t.tick dt).2 then 1 else 0) + (RepeatingTimer.run (t.tick dt).1 rest).2)

/-- `LIDAR_RANGE_MIN` (src/lidar.rs line 9). -/
def LIDAR_RANGE_MIN : ℝ := 0.2

/-- `LIDAR_RANGE_MAX` (src/lidar.rs line 10). -/
def LIDAR_RANGE_MAX : ℝ := 12

/-- `LIDAR_SCAN_RATE` (src/lidar.rs line 11). -/
def LIDAR_SCAN_RATE : ℝ := 10

/-- `LIDAR_RAYS_PER_SCAN` (src/lidar.rs line 12). -/
def LIDAR_RAYS_PER_SCAN : ℕ := 36

/-- `LIDAR_ANGULAR_RESOLUTION` (src/lidar.rs line 13). -/
def LIDAR_ANGULAR_RESOLUTION : ℝ := 2 * Real.pi / (LIDAR_RAYS_PER_SCAN : ℝ)

/-- The `LidarSensor` component (src/lidar.rs lines 41-72), restricted to the
fields that influence ranging results: `offset`, `visualize`, `enable_logging`,
`current_angle`, `current_ray` and the result buffer are omitted (pure
side-channel or output state). -/
structure LidarSensor where
  range_min : ℝ
  range_max : ℝ
  scan_rate : ℝ
  rays_per_scan : ℕ
  angular_resolution : ℝ
  scan_timer : RepeatingTimer
  noise_stddev : ℝ

/-- `LidarSensor::default` (src/lidar.rs lines 74-92). -/
def LidarSensor.default : LidarSensor :=
  { range_min := LIDAR_RANGE_MIN
    range_max := LIDAR_RANGE_MAX
    scan_rate := LIDAR_SCAN_RATE
    rays_per_scan := LIDAR_RAYS_PER_SCAN
    angular_resolution := LIDAR_ANGULAR_RESOLUTION
    scan_timer := ⟨1 / LIDAR_SCAN_RATE, 0⟩
    noise_stddev := 0 }

/-- `LidarSensor::update_parameters` (src/lidar.rs lines 96-107): recomputes
the angular resolution from `rays_per_scan`, rebuilds the scan timer from
`scan_rate`, and (in the source) resizes the result buffer.  It performs no
validation and cannot fail. -/
def LidarSensor.update_parameters (s : LidarSensor) : LidarSensor :=
  { s with
    angular_resolution := 2 * Real.pi / (s.rays_per_scan : ℝ)
    scan_timer := ⟨1 / s.scan_rate, 0⟩ }

/-- A configuration that the spec (section 7) calls valid: nonzero ray count,
`range_min < range_max`, positive scan rate. -/
def ConfigValid (s : LidarSensor) : Prop :=
  s.rays_per_scan ≠ 0 ∧ s.range_min < s.range_max ∧ 0 < s.scan_rate

/-- The sensor's `GlobalTransform` at sweep time: a world translation and the
world rotation, the latter modelled as the map it applies to local vectors
(`lidar_transform.rotation() * local_direction`, src/lidar.rs line 187). -/
structure Pose where
  translation : Vec3
  rotation : Vec3 → Vec3

/-- A sensor sitting at the origin with the identity orientation. -/
def originPose : Pose := ⟨Vec3.zero, fun v => v⟩

/-- One iteration of the inner obstacle loop (src/lidar.rs lines 193-220):
given the running `(closest_distance, found_obstacle)` accumulator and one
obstacle position, skip the obstacle if its distance from the sensor is below
`range_min` or above `range_max`; otherwise, if the dot product of the ray's
world direction with the normalized displacement exceeds
`cos(0.087)` (the angular tolerance of roughly five degrees) and the
distance beats the running minimum, record it as the new closest hit. -/
def scanStep (s : LidarSensor) (lidar_pos world_direction : Vec3)
    (acc : ℝ × Bool) (obstacle_pos : Vec3) : ℝ × Bool :=
  let to_obstacle := obstacle_pos - lidar_pos
  let distance_to_obstacle := to_obstacle.length
  if distance_to_obstacle < s.range_min ∨ s.range_max < distance_to_obstacle then acc
  else if Real.cos 0.087 < world_direction.dot to_obstacle.normalize then
    (if distance_to_obstacle < acc.1 then (distance_to_obstacle, true) else acc)
  else acc

/-- The full obstacle loop for one ray (src/lidar.rs lines 189-220), starting
from `closest_distance = range_max`, `found_obstacle = false`. -/
def scanRay (s : LidarSensor) (lidar_pos world_direction : Vec3)
    (obstacles : List Vec3) : ℝ × Bool :=
  obstacles.foldl (scanStep s lidar_pos world_direction) (s.range_max, false)

/-- The detection-cone predicate of the spec: the obstacle's distance lies in
`[range_min, range_max]` and its normalized direction's dot product with the
ray's world direction exceeds `cos(0.087)`. -/
def qualifies (s : LidarSensor) (lidar_pos world_direction obstacle_pos : Vec3) : Prop :=
  s.range_min ≤ Vec3.length (obstacle_pos - lidar_pos) ∧
    Vec3.length (obstacle_pos - lidar_pos) ≤ s.range_max ∧
    Real.cos 0.087 < world_direction.dot (obstacle_pos - lidar_pos).normalize

instance (s : LidarSensor) (p d o : Vec3) : Decidable (qualifies s p d o) :=
  inferInstanceAs (Decidable (_ ∧ _ ∧ _))

/-- The distances of the obstacles of a list that qualify for a given ray. -/
def qualDists (s : LidarSensor) (lidar_pos world_direction : Vec3)
    (obstacles : List Vec3) : List ℝ :=
  (obstacles.filter fun o => decide (qualifies s lidar_pos world_direction o)).map
    fun o => Vec3.length (o - lidar_pos)

/-- The angle of ray `i` (src/lidar.rs line 179). -/
def rayAngle (s : LidarSensor) (i : ℕ) : ℝ := (i : ℝ) * s.angular_resolution

/-- The world direction of ray `i` (src/lidar.rs lines 182-187): local
direction `(cos angle, 0, sin angle)` rotated by the sensor orientation. -/
def rayDir (s : LidarSensor) (pose : Pose) (i : ℕ) : Vec3 :=
  pose.rotation ⟨Real.cos (rayAngle s i), 0, Real.sin (rayAngle s i)⟩

/-- The geometric (pre-noise) result of ray `i`:
`(closest_distance, found_obstacle)` after the obstacle loop. -/
def rayGeo (s : LidarSensor) (pose : Pose) (obstacles : List Vec3) (i : ℕ) : ℝ × Bool :=
  scanRay s pose.translation (rayDir s pose i) obstacles

/-- The `(angle, distance, hit)` triple recorded for ray `i` in
`scan_results` (src/lidar.rs lines 222-254): the Gaussian sample `noise i` is
added to the distance exactly when an obstacle was found and
`noise_stddev > 0`. -/
def rayResult (s : LidarSensor) (pose : Pose) (obstacles : List Vec3)
    (noise : ℕ → ℝ) (i : ℕ) : ℝ × ℝ × Bool :=
  (rayAngle s i,
    if (rayGeo s pose obstacles i).2 = true ∧ 0 < s.noise_stddev then
      (rayGeo s pose obstacles i).1 + noise i
    else (rayGeo s pose obstacles i).1,
    (rayGeo s pose obstacles i).2)

/-- The `scan_results` buffer produced by one completed sweep
(src/lidar.rs lines 164-255). -/
def sweepResults (s : LidarSensor) (pose : Pose) (obstacles : List Vec3)
    (noise : ℕ → ℝ) : List (ℝ × ℝ × Bool) :=
  (List.range s.rays_per_scan).map (rayResult s pose obstacles noise)

/-- The ROS/Gazebo `LaserScan` message (src/lidar.rs lines 16-36).  `ranges`
entries live in `WithTop ℝ`, with `⊤` standing for `f32::INFINITY`. -/
structure LaserScan where
  angle_min : ℝ
  angle_max : ℝ
  angle_increment : ℝ
  time_increment : ℝ
  scan_time : ℝ
  range_min : ℝ
  range_max : ℝ
  ranges : List (WithTop ℝ)
  intensities : List ℝ

/-- The `LaserScan` message assembled by one completed sweep
(src/lidar.rs lines 152-162 and 239-249): per ray, a hit pushes the
(noise-adjusted) closest distance and intensity `1.0`, a miss pushes
`f32::INFINITY` and intensity `0.0`. -/
def sweepMessage (s : LidarSensor) (pose : Pose) (obstacles : List Vec3)
    (noise : ℕ → ℝ) : LaserScan :=
  { angle_min := 0
    angle_max := 2 * Real.pi
    angle_increment := 2 * Real.pi / (s.rays_per_scan : ℝ)
    time_increment := 0
    scan_time := 1 / s.scan_rate
    range_min := s.range_min
    range_max := s.range_max
    ranges := (List.range s.rays_per_scan).map fun i =>
      if (rayResult s pose obstacles noise i).2.2 = true then
        ((rayResult s pose obstacles noise i).2.1 : WithTop ℝ)
      else (⊤ : WithTop ℝ)
    intensities := (List.range s.rays_per_scan).map fun i =>
      if (rayResult s pose obstacles noise i).2.2 = true then (1 : ℝ) else 0 }

end

/-! ## Basic facts about `List.foldl min` -/

lemma foldl_min_le_init (l : List ℝ) : ∀ a : ℝ, List.foldl min a l ≤ a := by
  induction l with
  | nil => intro a; simp
  | cons x t ih => intro a; exact le_trans (ih (min a x)) (min_le_left a x)

lemma foldl_min_le_mem :
    ∀ (l : List ℝ) (x : ℝ), x ∈ l → ∀ a : ℝ, List.foldl min a l ≤ x := by
  intro l
  induction l with
  | nil => intro x hx; cases hx
  | cons y t ih =>
    intro x hx a
    rcases List.mem_cons.mp hx with h | h
    · subst h
      exact le_trans (foldl_min_le_init t (min a x)) (min_le_right a x)
    · exact ih x h (min a y)

lemma foldl_min_mem :
    ∀ (l : List ℝ) (a : ℝ), List.foldl min a l = a ∨ List.foldl min a l ∈ l := by
  intro l
  induction l with
  | nil => intro a; exact Or.inl rfl
  | cons x t ih =>
    intro a
    rcases ih (min a x) with h | h
    · rcases le_total a x with hax | hxa
      · exact Or.inl (by rw [List.foldl_cons, h, min_eq_left hax])
      · exact Or.inr (by rw [List.foldl_cons, h, min_eq_right hxa]; exact List.mem_cons_self x t)
    · exact Or.inr (List.mem_cons_of_mem x h)

/-! ## Case analysis of one obstacle-loop iteration -/

/-- Either an iteration of the obstacle loop leaves the accumulator alone, or
it records the obstacle: the new closest distance is the obstacle's distance,
which then lies in `[range_min, range_max]` and strictly under the previous
running minimum. -/
lemma scanStep_cases (s : LidarSensor) (p d : Vec3) (acc : ℝ × Bool) (o : Vec3) :
    scanStep s p d acc o = acc ∨
      (scanStep s p d acc o = (Vec3.length (o - p), true) ∧
        Vec3.length (o - p) < acc.1 ∧
        s.range_min ≤ Vec3.length (o - p) ∧ Vec3.length (o - p) ≤ s.range_max) := by
  simp only [scanStep]
  by_cases h1 : Vec3.length (o - p) < s.range_min ∨ s.range_max < Vec3.length (o - p)
  · rw [if_pos h1]; exact Or.inl rfl
  · rw [if_neg h1]
    push_neg at h1
    by_cases h2 : Real.cos 0.087 < Vec3.dot d (Vec3.normalize (o - p))
    · rw [if_pos h2]
      by_cases h3 : Vec3.length (o - p) < acc.1
      · rw [if_pos h3]; exact Or.inr ⟨rfl, h3, h1.1, h1.2⟩
      · rw [if_neg h3]; exact Or.inl rfl
    · rw [if_neg h2]; exact Or.inl rfl

/-- The `found_obstacle` flag, once set, stays set for the rest of the
obstacle loop. -/
lemma foldl_scanStep_snd_mono (s : LidarSensor) (p d : Vec3) :
    ∀ (l : List Vec3) (acc : ℝ × Bool), acc.2 = true →
      (List.foldl (scanStep s p d) acc l).2 = true := by
  intro l
  induction l with
  | nil => intro acc h; exact h
  | cons o t ih =>
    intro acc h
    simp only [List.foldl_cons]
    rcases scanStep_cases s p d acc o with hc | hc
    · rw [hc]; exact ih acc h
    · rw [hc.1]; exact ih _ rfl

/-- If the obstacle loop ends with `found_obstacle = false`, it never touched
the accumulator: the closest distance is still the initial one. -/
lemma foldl_scanStep_miss (s : LidarSensor) (p d : Vec3) :
    ∀ (l : List Vec3) (acc : ℝ × Bool),
      (List.foldl (scanStep s p d) acc l).2 = false →
      (List.foldl (scanStep s p d) acc l).1 = acc.1 ∧ acc.2 = false := by
  intro l
  induction l with
  | nil => intro acc h; exact ⟨rfl, h⟩
  | cons o t ih =>
    intro acc h
    simp only [List.foldl_cons] at h ⊢
    rcases scanStep_cases s p d acc o with hc | hc
    · rw [hc] at h ⊢; exact ih acc h
    · rw [hc.1] at h
      rw [foldl_scanStep_snd_mono s p d t _ rfl] at h
      cases h

/-- A ray whose obstacle loop found nothing reports `range_max`
(src/lidar.rs line 190: the accumulator starts at `range_max`). -/
lemma scanRay_miss (s : LidarSensor) (p d : Vec3) (l : List Vec3)
    (h : (scanRay s p d l).2 = false) : (scanRay s p d l).1 = s.range_max :=
  (foldl_scanStep_miss s p d l (s.range_max, false) h).1

/-- The running closest distance never increases during the obstacle loop. -/
lemma foldl_scanStep_fst_le (s : LidarSensor) (p d : Vec3) :
    ∀ (l : List Vec3) (acc : ℝ × Bool),
      (List.foldl (scanStep s p d) acc l).1 ≤ acc.1 := by
  intro l
  induction l with
  | nil => intro acc; exact le_rfl
  | cons o t ih =>
    intro acc
    simp only [List.foldl_cons]
    rcases scanStep_cases s p d acc o with hc | hc
    · rw [hc]; exact ih acc
    · rw [hc.1]; exact le_trans (ih _) hc.2.1.le

/-- Loop invariant: the running closest distance stays at most `range_max`,
and whenever `found_obstacle` is set it lies in `[range_min, range_max)`. -/
lemma foldl_scanStep_inv (s : LidarSensor) (p d : Vec3) :
    ∀ (l : List Vec3) (acc : ℝ × Bool),
      acc.1 ≤ s.range_max →
      (acc.2 = true → s.range_min ≤ acc.1 ∧ acc.1 < s.range_max) →
      (List.foldl (scanStep s p d) acc l).1 ≤ s.range_max ∧
        ((List.foldl (scanStep s p d) acc l).2 = true →
          s.range_min ≤ (List.foldl (scanStep s p d) acc l).1 ∧
            (List.foldl (scanStep s p d) acc l).1 < s.range_max) := by
  intro l
  induction l with
  | nil => intro acc h1 h2; exact ⟨h1, h2⟩
  | cons o t ih =>
    intro acc h1 h2
    simp only [List.foldl_cons]
    rcases scanStep_cases s p d acc o with hc | hc
    · rw [hc]; exact ih acc h1 h2
    · rw [hc.1]
      refine ih _ (le_trans hc.2.1.le h1) ?_
      intro _
      exact ⟨hc.2.2.1, lt_of_lt_of_le hc.2.1 h1⟩

/-- Dropping from the obstacle list an obstacle on which every reachable
iteration is a no-op does not change the ray's outcome. -/
lemma scanRay_drop (s : LidarSensor) (p d : Vec3) (l1 l2 : List Vec3) (o : Vec3)
    (ho : ∀ acc : ℝ × Bool, acc.1 ≤ s.range_max → scanStep s p d acc o = acc) :
    scanRay s p d (l1 ++ o :: l2) = scanRay s p d (l1 ++ l2) := by
  unfold scanRay
  rw [List.foldl_append, List.foldl_append, List.foldl_cons]
  rw [ho _ (foldl_scanStep_fst_le s p d l1 (s.range_max, false))]

/-- The closest distance computed by the obstacle loop is the running minimum,
over the initial value, of the distances of the qualifying obstacles. -/
lemma foldl_scanStep_fst (s : LidarSensor) (p d : Vec3) :
    ∀ (l : List Vec3) (a : ℝ) (b : Bool),
      (List.foldl (scanStep s p d) (a, b) l).1 =
        List.foldl min a (qualDists s p d l) := by
  intro l
  induction l with
  | nil => intro a b; simp [qualDists]
  | cons o t ih =>
    intro a b
    simp only [List.foldl_cons]
    by_cases h1 : Vec3.length (o - p) < s.range_min ∨ s.range_max < Vec3.length (o - p)
    · have hq : ¬ qualifies s p d o := by
        rintro ⟨hq1, hq2, -⟩
        rcases h1 with h | h
        · exact absurd hq1 (not_le.mpr h)
        · exact absurd hq2 (not_le.mpr h)
      have hstep : scanStep s p d (a, b) o = (a, b) := by
        simp only [scanStep]; rw [if_pos h1]
      have hdists : qualDists s p d (o :: t) = qualDists s p d t := by
        simp [qualDists, List.filter_cons, hq]
      rw [hstep, hdists, ih a b]
    · have h1' := h1
      push_neg at h1'
      by_cases h2 : Real.cos 0.087 < Vec3.dot d (Vec3.normalize (o - p))
      · have hq : qualifies s p d o := ⟨h1'.1, h1'.2, h2⟩
        have hdists : qualDists s p d (o :: t) =
            Vec3.length (o - p) :: qualDists s p d t := by
          simp [qualDists, List.filter_cons, hq]
        have hstep : scanStep s p d (a, b) o =
            if Vec3.length (o - p) < a then (Vec3.length (o - p), true) else (a, b) := by
          simp only [scanStep]; rw [if_neg h1, if_pos h2]
        rw [hstep, hdists, List.foldl_cons]
        by_cases h3 : Vec3.length (o - p) < a
        · rw [if_pos h3, ih _ true, min_eq_right h3.le]
        · rw [if_neg h3, ih a b, min_eq_left (not_lt.mp h3)]
      · have hq : ¬ qualifies s p d o := fun hh => h2 hh.2.2
        have hstep : scanStep s p d (a, b) o = (a, b) := by
          simp only [scanStep]; rw [if_neg h1, if_neg h2]
        have hdists : qualDists s p d (o :: t) = qualDists s p d t := by
          simp [qualDists, List.filter_cons, hq]
        rw [hstep, hdists, ih a b]

/-- Indexing into `sweepResults` pins down the index and the per-ray triple. -/
lemma sweepResults_getElem {s : LidarSensor} {pose : Pose} {obstacles : List Vec3}
    {noise : ℕ → ℝ} {i : ℕ} {a d : ℝ} {hit : Bool}
    (h : (sweepResults s pose obstacles noise)[i]? = some (a, d, hit)) :
    i < s.rays_per_scan ∧ rayResult s pose obstacles noise i = (a, d, hit) := by
  by_cases hi : i < s.rays_per_scan
  · refine ⟨hi, ?_⟩
    rw [sweepResults, List.getElem?_map, List.getElem?_range hi] at h
    simpa using h
  · exfalso
    have hlen : (sweepResults s pose obstacles noise).length ≤ i := by
      simp only [sweepResults, List.length_map, List.length_range]
      omega
    rw [List.getElem?_eq_none hlen] at h
    exact Option.noConfusion h

/-! ## Scheduler lemmas -/

lemma run_no_fire (dur : ℝ) (_hd : 0 < dur) :
    ∀ (dts : List ℝ) (e : ℝ), 0 ≤ e → (∀ x ∈ dts, 0 ≤ x) → e + dts.sum < dur →
      RepeatingTimer.run ⟨dur, e⟩ dts = (⟨dur, e + dts.sum⟩, 0) := by
  intro dts
  induction dts with
  | nil => intro e _ _ _; simp [RepeatingTimer.run]
  | cons x t ih =>
    intro e he hnn hsum
    have hx : 0 ≤ x := hnn x (List.mem_cons_self x t)
    have ht : ∀ y ∈ t, 0 ≤ y := fun y hy => hnn y (List.mem_cons_of_mem x hy)
    have htsum : 0 ≤ t.sum := List.sum_nonneg ht
    have hlt : e + x < dur := by
      have := hsum
      rw [List.sum_cons] at this
      linarith
    have htick : (RepeatingTimer.tick ⟨dur, e⟩ x) = (⟨dur, e + x⟩, false) := by
      rw [RepeatingTimer.tick, if_neg (not_le.mpr hlt)]
    rw [RepeatingTimer.run, htick]
    have hrec := ih (e + x) (by linarith) ht
      (by rw [List.sum_cons] at hsum; linarith)
    rw [hrec]
    rw [List.sum_cons]
    norm_num
    ring

lemma run_one_fire (dur : ℝ) (hd : 0 < dur) :
    ∀ (dts : List ℝ) (e : ℝ), 0 ≤ e → e < dur → (∀ x ∈ dts, 0 ≤ x) →
      e + dts.sum = dur →
      RepeatingTimer.run ⟨dur, e⟩ dts = (⟨dur, 0⟩, 1) := by
  intro dts
  induction dts with
  | nil =>
    intro e _ helt _ hsum
    exfalso
    rw [List.sum_nil, add_zero] at hsum
    exact absurd hsum (ne_of_lt helt)
  | cons x t ih =>
    intro e he helt hnn hsum
    have hx : 0 ≤ x := hnn x (List.mem_cons_self x t)
    have ht : ∀ y ∈ t, 0 ≤ y := fun y hy => hnn y (List.mem_cons_of_mem x hy)
    have htsum : 0 ≤ t.sum := List.sum_nonneg ht
    rw [List.sum_cons] at hsum
    by_cases hfire : dur ≤ e + x
    · have hex : e + x = dur := le_antisymm (by linarith) hfire
      have htz : t.sum = 0 := by linarith
      have htick : (RepeatingTimer.tick ⟨dur, e⟩ x) = (⟨dur, 0⟩, true) := by
        rw [RepeatingTimer.tick, if_pos hfire]
        rw [hex]
        norm_num
      rw [RepeatingTimer.run, htick]
      have hrec := run_no_fire dur hd t 0 le_rfl ht (by rw [htz]; linarith)
      rw [hrec, htz]
      norm_num
    · have htick : (RepeatingTimer.tick ⟨dur, e⟩ x) = (⟨dur, e + x⟩, false) := by
        rw [RepeatingTimer.tick, if_neg hfire]
      rw [RepeatingTimer.run, htick]
      have hrec := ih (e + x) (by linarith) (lt_of_not_le hfire) ht (by linarith)
      rw [hrec]
      norm_num

/-! ## Numeric evaluation helpers -/

lemma sqrt_eval {a b : ℝ} (hb : 0 ≤ b) (h : b * b = a) : Real.sqrt a = b := by
  rw [← h, Real.sqrt_mul_self hb]

/-- The angular-tolerance cosine threshold is strictly below `cos 0 = 1`. -/
lemma cos_tol_lt_one : Real.cos 0.087 < 1 := by
  have h := Real.cos_lt_cos_of_nonneg_of_le_pi (x := 0) (y := 0.087) le_rfl
    (by nlinarith [Real.pi_gt_three]) (by norm_num)
  simpa using h

/-- For every nonzero ray index of the default 36-ray scan, the ray's angle
lies outside the five-degree tolerance cone around `+X`: its cosine is
strictly below `cos 0.087`. -/
lemma cos_ray_lt (i : ℕ) (h1 : 1 ≤ i) (h2 : i ≤ 35) :
    Real.cos ((i : ℝ) * (2 * Real.pi / 36)) < Real.cos 0.087 := by
  have hpi := Real.pi_pos
  have hpi3 := Real.pi_gt_three
  have hx1 : (1 : ℝ) ≤ (i : ℝ) := by exact_mod_cast h1
  have hx2 : (i : ℝ) ≤ 35 := by exact_mod_cast h2
  have hkey : ∀ y : ℝ, Real.pi / 18 ≤ y → y ≤ Real.pi → Real.cos y < Real.cos 0.087 := by
    intro y hy1 hy2
    have hstep : Real.cos (Real.pi / 18) < Real.cos 0.087 :=
      Real.cos_lt_cos_of_nonneg_of_le_pi (by norm_num) (by linarith) (by nlinarith)
    have hmono : Real.cos y ≤ Real.cos (Real.pi / 18) :=
      Real.cos_le_cos_of_nonneg_of_le_pi (by positivity) hy2 hy1
    exact lt_of_le_of_lt hmono hstep
  by_cases hcase : i ≤ 18
  · have hx3 : (i : ℝ) ≤ 18 := by exact_mod_cast hcase
    apply hkey
    · nlinarith [mul_nonneg (by linarith : (0:ℝ) ≤ (i:ℝ) - 1) hpi.le]
    · nlinarith [mul_nonneg (by linarith : (0:ℝ) ≤ 18 - (i:ℝ)) hpi.le]
  · have h19 : 19 ≤ i := by omega
    have hx3 : (19 : ℝ) ≤ (i : ℝ) := by exact_mod_cast h19
    rw [show Real.cos ((i:ℝ) * (2 * Real.pi / 36)) =
        Real.cos (2 * Real.pi - (i:ℝ) * (2 * Real.pi / 36)) from
      (Real.cos_two_pi_sub _).symm]
    apply hkey
    · nlinarith [mul_nonneg (by linarith : (0:ℝ) ≤ 35 - (i:ℝ)) hpi.le]
    · nlinarith [mul_nonneg (by linarith : (0:ℝ) ≤ (i:ℝ) - 18) hpi.le]

/-- The default angular resolution, in closed numeric form. -/
lemma rayAngle_default (i : ℕ) :
    rayAngle LidarSensor.default i = (i : ℝ) * (2 * Real.pi / 36) := by
  norm_num [rayAngle, LidarSensor.default, LIDAR_ANGULAR_RESOLUTION, LIDAR_RAYS_PER_SCAN]

/-- Evaluation of the obstacle loop of Scenario A: sensor at the origin with
identity orientation, one obstacle at `(3, 0, 0)`, default configuration.
For ray `i` the loop reports `(3, true)` exactly when the ray's angle passes
the cone test, and `(range_max, false) = (12, false)` otherwise. -/
lemma c6_geo (i : ℕ) :
    rayGeo LidarSensor.default originPose [⟨3, 0, 0⟩] i =
      if Real.cos 0.087 < Real.cos (rayAngle LidarSensor.default i) then ((3:ℝ), true)
      else (12, false) := by
  have hlen : Vec3.length ((⟨3, 0, 0⟩ : Vec3) - Vec3.zero) = 3 := by
    simp only [Vec3.sub_def, Vec3.zero, Vec3.length, Vec3.dot]
    exact sqrt_eval (by norm_num) (by norm_num)
  have hdir : rayDir LidarSensor.default originPose i =
      ⟨Real.cos (rayAngle LidarSensor.default i), 0,
        Real.sin (rayAngle LidarSensor.default i)⟩ := by
    simp [rayDir, originPose]
  have hdot : Vec3.dot (rayDir LidarSensor.default originPose i)
      (Vec3.normalize ((⟨3, 0, 0⟩ : Vec3) - Vec3.zero)) =
      Real.cos (rayAngle LidarSensor.default i) := by
    rw [hdir]
    have hlen3 : Vec3.length (⟨3, 0, 0⟩ : Vec3) = 3 := by
      simp only [Vec3.length, Vec3.dot]
      exact sqrt_eval (by norm_num) (by norm_num)
    simp only [Vec3.normalize, Vec3.sub_def, Vec3.zero, Vec3.dot]
    norm_num [hlen3]
  have htr : originPose.translation = Vec3.zero := rfl
  unfold rayGeo scanRay
  rw [htr]
  simp only [List.foldl_cons, List.foldl_nil]
  simp only [scanStep, hlen, hdot]
  rw [show LidarSensor.default.range_max = 12 from rfl,
    show LidarSensor.default.range_min = 0.2 from rfl]
  rw [if_neg (by norm_num : ¬((3:ℝ) < 0.2 ∨ (12:ℝ) < 3))]
  by_cases hc : Real.cos 0.087 < Real.cos (rayAngle LidarSensor.default i)
  · rw [if_pos hc, if_pos hc, if_pos (by norm_num : (3:ℝ) < ((12:ℝ), false).1)]
  · rw [if_neg hc, if_neg hc]

/-- A one-ray sweep over an empty obstacle list: the single entry misses and
reports `range_max = 12`. -/
lemma empty_scan_entry :
    (sweepResults { LidarSensor.default with rays_per_scan := 1 } originPose []
        (fun _ => 0))[0]? = some (0, 12, false) := by
  rw [sweepResults, List.getElem?_map,
    List.getElem?_range (by norm_num : (0:ℕ) < 1), Option.map_some']
  simp [rayResult, rayGeo, scanRay, rayAngle, LidarSensor.default, LIDAR_RANGE_MAX]

/-! ## The claims -/

/-- C1: for every valid configuration (`rays_per_scan ≥ 1`, with
`angular_resolution` consistent with it, namely `2π / rays_per_scan`) and
every pose, obstacle list and noise draw, a completed sweep has exactly
`rays_per_scan` entries, the `i`-th entry's angle is exactly
`i * angular_resolution`, the angles are strictly increasing, start at `0`,
and all lie in `[0, 2π)`. -/
theorem C1_scan_shape (s : LidarSensor) (pose : Pose) (obstacles : List Vec3)
    (noise : ℕ → ℝ) (h1 : 1 ≤ s.rays_per_scan)
    (h2 : s.angular_resolution = 2 * Real.pi / (s.rays_per_scan : ℝ)) :
    (sweepResults s pose obstacles noise).length = s.rays_per_scan ∧
    (∀ i, i < s.rays_per_scan → ∃ d : ℝ, ∃ hit : Bool,
        (sweepResults s pose obstacles noise)[i]? =
          some ((i : ℝ) * s.angular_resolution, d, hit)) ∧
    (∀ i j : ℕ, i < j → j < s.rays_per_scan →
        (i : ℝ) * s.angular_resolution < (j : ℝ) * s.angular_resolution) ∧
    (∀ i, i < s.rays_per_scan →
        0 ≤ (i : ℝ) * s.angular_resolution ∧
          (i : ℝ) * s.angular_resolution < 2 * Real.pi) := by
  have hn : (0 : ℝ) < (s.rays_per_scan : ℝ) := by
    exact_mod_cast Nat.lt_of_lt_of_le Nat.zero_lt_one h1
  have har : 0 < s.angular_resolution := by
    rw [h2]; positivity
  refine ⟨?_, ?_, ?_, ?_⟩
  · simp [sweepResults]
  · intro i hi
    refine ⟨(rayResult s pose obstacles noise i).2.1,
      (rayResult s pose obstacles noise i).2.2, ?_⟩
    rw [sweepResults, List.getElem?_map, List.getElem?_range hi]
    rfl
  · intro i j hij _
    have hc : (i : ℝ) < (j : ℝ) := by exact_mod_cast hij
    exact mul_lt_mul_of_pos_right hc har
  · intro i hi
    refine ⟨mul_nonneg (Nat.cast_nonneg i) har.le, ?_⟩
    have hin : (i : ℝ) < (s.rays_per_scan : ℝ) := by exact_mod_cast hi
    have hcancel : (s.rays_per_scan : ℝ) * (2 * Real.pi / (s.rays_per_scan : ℝ)) =
        2 * Real.pi := by
      field_simp
    calc (i : ℝ) * s.angular_resolution
        < (s.rays_per_scan : ℝ) * s.angular_resolution :=
          mul_lt_mul_of_pos_right hin har
      _ = 2 * Real.pi := by rw [h2]; exact hcancel

/-- C1 witness: the default sensor configuration (36 rays) is valid and its
sweep over no obstacles indeed has 36 entries. -/
theorem C1_scan_shape_witness :
    1 ≤ LidarSensor.default.rays_per_scan ∧
    LidarSensor.default.angular_resolution =
      2 * Real.pi / (LidarSensor.default.rays_per_scan : ℝ) ∧
    (sweepResults LidarSensor.default originPose [] (fun _ => 0)).length =
      LidarSensor.default.rays_per_scan := by
  refine ⟨by norm_num [LidarSensor.default, LIDAR_RAYS_PER_SCAN], rfl, ?_⟩
  exact (C1_scan_shape LidarSensor.default originPose [] (fun _ => 0)
    (by norm_num [LidarSensor.default, LIDAR_RAYS_PER_SCAN]) rfl).1

/-- C2: if some obstacle qualifies for a ray (distance within
`[range_min, range_max]` and normalized direction within the cone,
`dot > cos 0.087`), the pre-noise distance the obstacle loop reports is the
minimum distance over all qualifying obstacles — it is attained by a
qualifying obstacle and bounds every qualifying obstacle's distance from
below — and that reported distance is invariant under any permutation of the
obstacle list. -/
theorem C2_nearest_wins (s : LidarSensor) (p dir : Vec3) (obstacles : List Vec3)
    (o : Vec3) (ho : o ∈ obstacles) (hq : qualifies s p dir o) :
    (∃ o2 ∈ obstacles, qualifies s p dir o2 ∧
        (scanRay s p dir obstacles).1 = Vec3.length (o2 - p)) ∧
    (∀ o2 ∈ obstacles, qualifies s p dir o2 →
        (scanRay s p dir obstacles).1 ≤ Vec3.length (o2 - p)) ∧
    (∀ obstacles2 : List Vec3, obstacles.Perm obstacles2 →
        (scanRay s p dir obstacles2).1 = (scanRay s p dir obstacles).1) := by
  have hfst : ∀ l : List Vec3, (scanRay s p dir l).1 =
      List.foldl min s.range_max (qualDists s p dir l) :=
    fun l => foldl_scanStep_fst s p dir l s.range_max false
  have hmem : ∀ o2 ∈ obstacles, qualifies s p dir o2 →
      Vec3.length (o2 - p) ∈ qualDists s p dir obstacles := by
    intro o2 h2 hq2
    exact List.mem_map_of_mem _ (List.mem_filter.mpr ⟨h2, by simpa using hq2⟩)
  have hub : ∀ o2 ∈ obstacles, qualifies s p dir o2 →
      (scanRay s p dir obstacles).1 ≤ Vec3.length (o2 - p) := by
    intro o2 h2 hq2
    rw [hfst]
    exact foldl_min_le_mem _ _ (hmem o2 h2 hq2) _
  refine ⟨?_, hub, ?_⟩
  · rcases foldl_min_mem (qualDists s p dir obstacles) s.range_max with hcase | hcase
    · refine ⟨o, ho, hq, ?_⟩
      have h1 := hub o ho hq
      have h3 : (scanRay s p dir obstacles).1 = s.range_max := by rw [hfst, hcase]
      rw [h3] at h1 ⊢
      exact le_antisymm h1 hq.2.1
    · rw [hfst]
      rcases List.mem_map.mp hcase with ⟨o2, ho2, heq⟩
      rcases List.mem_filter.mp ho2 with ⟨ho2m, ho2q⟩
      exact ⟨o2, ho2m, by simpa using ho2q, heq.symm⟩
  · intro l2 hperm
    rw [hfst, hfst]
    have hqperm : (qualDists s p dir obstacles).Perm (qualDists s p dir l2) :=
      (hperm.filter _).map _
    exact (hqperm.foldl_eq _).symm

/-- C2 witness: Scenario D — sensor at the origin, ray along `+X`, obstacles
at `(3,0,0)` and `(5,0,0)`; the near obstacle qualifies and swapping the two
obstacles leaves the reported distance unchanged. -/
theorem C2_nearest_wins_witness :
    (⟨3, 0, 0⟩ : Vec3) ∈ [(⟨3, 0, 0⟩ : Vec3), ⟨5, 0, 0⟩] ∧
    qualifies LidarSensor.default Vec3.zero ⟨1, 0, 0⟩ ⟨3, 0, 0⟩ ∧
    (scanRay LidarSensor.default Vec3.zero ⟨1, 0, 0⟩ [⟨5, 0, 0⟩, ⟨3, 0, 0⟩]).1 =
      (scanRay LidarSensor.default Vec3.zero ⟨1, 0, 0⟩ [⟨3, 0, 0⟩, ⟨5, 0, 0⟩]).1 := by
  have hlen : Vec3.length ((⟨3, 0, 0⟩ : Vec3) - Vec3.zero) = 3 := by
    simp only [Vec3.sub_def, Vec3.zero, Vec3.length, Vec3.dot]
    exact sqrt_eval (by norm_num) (by norm_num)
  have hlen3 : Vec3.length (⟨3, 0, 0⟩ : Vec3) = 3 := by
    simp only [Vec3.length, Vec3.dot]
    exact sqrt_eval (by norm_num) (by norm_num)
  have hdot : Vec3.dot ⟨1, 0, 0⟩ (Vec3.normalize ((⟨3, 0, 0⟩ : Vec3) - Vec3.zero)) = 1 := by
    simp only [Vec3.normalize, Vec3.sub_def, Vec3.zero, Vec3.dot]
    norm_num [hlen3]
  have hq : qualifies LidarSensor.default Vec3.zero ⟨1, 0, 0⟩ ⟨3, 0, 0⟩ := by
    refine ⟨?_, ?_, ?_⟩
    · rw [hlen, show LidarSensor.default.range_min = 0.2 from rfl]; norm_num
    · rw [hlen, show LidarSensor.default.range_max = 12 from rfl]; norm_num
    · rw [hdot]; exact cos_tol_lt_one
  have hmem : (⟨3, 0, 0⟩ : Vec3) ∈ [(⟨3, 0, 0⟩ : Vec3), ⟨5, 0, 0⟩] :=
    List.mem_cons_self _ _
  refine ⟨hmem, hq, ?_⟩
  exact (C2_nearest_wins LidarSensor.default Vec3.zero ⟨1, 0, 0⟩
    [⟨3, 0, 0⟩, ⟨5, 0, 0⟩] ⟨3, 0, 0⟩ hmem hq).2.2 _ (List.Perm.swap _ _ _)

/-- C3: per ray, the `LaserScan` and `scan_results` encodings are related as
follows: `ranges[i]` is `+∞` exactly when the entry's `hit` flag is false and
otherwise equals the entry's distance; `intensities[i]` is `1.0` on a hit and
`0.0` on a miss; and a miss records `range_max` as its `scan_results`
distance while `ranges[i]` is `+∞`. -/
theorem C3_message_encoding (s : LidarSensor) (pose : Pose) (obstacles : List Vec3)
    (noise : ℕ → ℝ) (i : ℕ) (a d : ℝ) (hit : Bool)
    (h : (sweepResults s pose obstacles noise)[i]? = some (a, d, hit)) :
    (sweepMessage s pose obstacles noise).ranges[i]? =
      some (if hit = true then (d : WithTop ℝ) else (⊤ : WithTop ℝ)) ∧
    ((sweepMessage s pose obstacles noise).ranges[i]? = some (⊤ : WithTop ℝ) ↔
      hit = false) ∧
    (sweepMessage s pose obstacles noise).intensities[i]? =
      some (if hit = true then (1 : ℝ) else 0) ∧
    (hit = false → d = s.range_max) := by
  obtain ⟨hi, hr⟩ := sweepResults_getElem h
  have hranges : (sweepMessage s pose obstacles noise).ranges[i]? =
      some (if hit = true then (d : WithTop ℝ) else (⊤ : WithTop ℝ)) := by
    simp only [sweepMessage]
    rw [List.getElem?_map, List.getElem?_range hi, Option.map_some', hr]
  have hintens : (sweepMessage s pose obstacles noise).intensities[i]? =
      some (if hit = true then (1 : ℝ) else 0) := by
    simp only [sweepMessage]
    rw [List.getElem?_map, List.getElem?_range hi, Option.map_some', hr]
  refine ⟨hranges, ?_, hintens, ?_⟩
  · rw [hranges]
    cases hit
    · simp
    · simp
  · intro hf
    simp only [rayResult, Prod.mk.injEq] at hr
    obtain ⟨-, hd, hh⟩ := hr
    rw [hf] at hh
    rw [← hd, if_neg (by simp [hh])]
    have hm := scanRay_miss s pose.translation (rayDir s pose i) obstacles
      (by simpa [rayGeo] using hh)
    simpa [rayGeo] using hm

/-- C3 witness: a one-ray sweep with no obstacles — the miss records
`range_max = 12` in `scan_results` and `+∞` in `ranges`. -/
theorem C3_message_encoding_witness :
    (sweepResults { LidarSensor.default with rays_per_scan := 1 } originPose []
        (fun _ => 0))[0]? = some (0, 12, false) ∧
    (sweepMessage { LidarSensor.default with rays_per_scan := 1 } originPose []
        (fun _ => 0)).ranges[0]? = some (⊤ : WithTop ℝ) := by
  refine ⟨empty_scan_entry, ?_⟩
  have hc := (C3_message_encoding _ _ _ _ 0 0 12 false empty_scan_entry).1
  simpa using hc

/-- C4: an obstacle whose distance from the sensor is strictly below
`range_min` or strictly above `range_max` never causes a hit and never
affects the reported distance of any ray — removing it from the obstacle
list leaves every ray's outcome unchanged — and if every obstacle is out of
range, every ray of the sweep misses and reports `range_max`. -/
theorem C4_out_of_range :
    (∀ (s : LidarSensor) (p o : Vec3),
        (Vec3.length (o - p) < s.range_min ∨ s.range_max < Vec3.length (o - p)) →
        ∀ (dir : Vec3) (l1 l2 : List Vec3),
          scanRay s p dir (l1 ++ o :: l2) = scanRay s p dir (l1 ++ l2)) ∧
    (∀ (s : LidarSensor) (pose : Pose) (obstacles : List Vec3) (noise : ℕ → ℝ),
        (∀ o ∈ obstacles,
            Vec3.length (o - pose.translation) < s.range_min ∨
              s.range_max < Vec3.length (o - pose.translation)) →
        ∀ e ∈ sweepResults s pose obstacles noise,
          e.2.1 = s.range_max ∧ e.2.2 = false) := by
  have hskip : ∀ (s : LidarSensor) (p o : Vec3),
      (Vec3.length (o - p) < s.range_min ∨ s.range_max < Vec3.length (o - p)) →
      ∀ (dir : Vec3) (acc : ℝ × Bool), scanStep s p dir acc o = acc := by
    intro s p o hout dir acc
    simp only [scanStep]
    rw [if_pos hout]
  constructor
  · intro s p o hout dir l1 l2
    exact scanRay_drop s p dir l1 l2 o (fun acc _ => hskip s p o hout dir acc)
  · intro s pose obstacles noise hall e he
    have hfold : ∀ (l : List Vec3),
        (∀ o ∈ l, Vec3.length (o - pose.translation) < s.range_min ∨
          s.range_max < Vec3.length (o - pose.translation)) →
        ∀ (dvec : Vec3) (acc : ℝ × Bool),
          List.foldl (scanStep s pose.translation dvec) acc l = acc := by
      intro l
      induction l with
      | nil => intro _ _ _; rfl
      | cons o t ih =>
        intro hl dvec acc
        rw [List.foldl_cons,
          hskip s pose.translation o (hl o (List.mem_cons_self o t)) dvec acc]
        exact ih (fun o2 h2 => hl o2 (List.mem_cons_of_mem o h2)) dvec acc
    obtain ⟨i, -, hei⟩ :
        ∃ a, a < s.rays_per_scan ∧ rayResult s pose obstacles noise a = e := by
      simpa [sweepResults, List.mem_map, List.mem_range] using he
    have hgeo : rayGeo s pose obstacles i = (s.range_max, false) := by
      unfold rayGeo scanRay
      exact hfold obstacles hall _ _
    rw [← hei]
    simp [rayResult, hgeo]

/-- C4 witness: Scenario B — with the default `range_min = 0.2`, an obstacle
at distance `0.1` is rejected, so dropping it from the obstacle list does not
change the ray's outcome. -/
theorem C4_out_of_range_witness :
    (Vec3.length ((⟨0.1, 0, 0⟩ : Vec3) - Vec3.zero) < LidarSensor.default.range_min ∨
      LidarSensor.default.range_max < Vec3.length ((⟨0.1, 0, 0⟩ : Vec3) - Vec3.zero)) ∧
    scanRay LidarSensor.default Vec3.zero ⟨1, 0, 0⟩ [⟨0.1, 0, 0⟩] =
      scanRay LidarSensor.default Vec3.zero ⟨1, 0, 0⟩ [] := by
  have hlen : Vec3.length ((⟨0.1, 0, 0⟩ : Vec3) - Vec3.zero) = 0.1 := by
    simp only [Vec3.sub_def, Vec3.zero, Vec3.length, Vec3.dot]
    exact sqrt_eval (by norm_num) (by norm_num)
  have hout : Vec3.length ((⟨0.1, 0, 0⟩ : Vec3) - Vec3.zero) <
      LidarSensor.default.range_min ∨
      LidarSensor.default.range_max < Vec3.length ((⟨0.1, 0, 0⟩ : Vec3) - Vec3.zero) :=
    Or.inl (by rw [hlen, show LidarSensor.default.range_min = 0.2 from rfl]; norm_num)
  exact ⟨hout,
    C4_out_of_range.1 LidarSensor.default Vec3.zero ⟨0.1, 0, 0⟩ hout ⟨1, 0, 0⟩ [] []⟩

/-- C5 counterexample: the claim says invalid configurations are rejected at
configuration-update time.  The code's configuration-update operation
(`update_parameters`, run by `lidar_parameter_update_system`) performs no
validation and cannot fail: updating a sensor whose `rays_per_scan` is `0`
succeeds and leaves the configuration invalid, so the scanning system is
invoked with it. -/
theorem C5_counterexample :
    ¬ ConfigValid (({ LidarSensor.default with rays_per_scan := 0 } :
      LidarSensor).update_parameters) := by
  intro hval
  exact hval.1 rfl

/-- C5 amended: `update_parameters` performs no validation and always
succeeds — it recomputes the derived fields and leaves `rays_per_scan`, the
range bounds and the scan rate unchanged, invalid or not; a sweep invoked
with `rays_per_scan = 0` does not fail either, it merely produces an empty
scan. -/
theorem C5_amended (s : LidarSensor) (h : s.rays_per_scan = 0) (pose : Pose)
    (obstacles : List Vec3) (noise : ℕ → ℝ) :
    s.update_parameters.rays_per_scan = 0 ∧
    s.update_parameters.range_min = s.range_min ∧
    s.update_parameters.range_max = s.range_max ∧
    s.update_parameters.scan_rate = s.scan_rate ∧
    sweepResults s pose obstacles noise = [] ∧
    sweepResults s.update_parameters pose obstacles noise = [] := by
  refine ⟨h, rfl, rfl, rfl, ?_, ?_⟩
  · simp [sweepResults, h]
  · simp [sweepResults, LidarSensor.update_parameters, h]

/-- C5 witness: concrete invalid configuration with `rays_per_scan = 0` —
its sweep runs and is empty. -/
theorem C5_amended_witness :
    ({ LidarSensor.default with rays_per_scan := 0 } : LidarSensor).rays_per_scan = 0 ∧
    sweepResults { LidarSensor.default with rays_per_scan := 0 } originPose []
      (fun _ => 0) = [] :=
  ⟨rfl, (C5_amended _ rfl originPose [] (fun _ => 0)).2.2.2.2.1⟩

/-- C6: Scenario A — sensor at the origin with identity orientation (facing
`+X`), one obstacle at `(3,0,0)`, default configuration (`range_max = 12`,
`rays_per_scan = 36`): the ray at angle `0` reports `hit = true` with
distance `3`, and every other ray reports `hit = false` with distance
`range_max = 12`. -/
theorem C6_scenario_a (i : ℕ) (hi : i < 36) (noise : ℕ → ℝ) :
    (sweepResults LidarSensor.default originPose [⟨3, 0, 0⟩] noise)[i]? =
      some (if i = 0 then ((i : ℝ) * (2 * Real.pi / 36), 3, true)
            else ((i : ℝ) * (2 * Real.pi / 36), 12, false)) := by
  have hi' : i < LidarSensor.default.rays_per_scan := hi
  rw [sweepResults, List.getElem?_map, List.getElem?_range hi', Option.map_some']
  have hgeo := c6_geo i
  have hnoise : ¬((rayGeo LidarSensor.default originPose [⟨3, 0, 0⟩] i).2 = true ∧
      0 < LidarSensor.default.noise_stddev) := by
    rintro ⟨-, hlt⟩
    exact absurd hlt (by norm_num [LidarSensor.default])
  simp only [rayResult]
  rw [if_neg hnoise]
  rcases Nat.eq_zero_or_pos i with h0 | h1
  · subst h0
    have hcos : Real.cos 0.087 < Real.cos (rayAngle LidarSensor.default 0) := by
      have h00 : rayAngle LidarSensor.default 0 = 0 := by
        rw [rayAngle_default]; norm_num
      rw [h00, Real.cos_zero]
      exact cos_tol_lt_one
    rw [hgeo, if_pos hcos]
    simp [rayAngle_default]
  · have hup : i ≤ 35 := by omega
    have hlt := cos_ray_lt i h1 hup
    have hcos : ¬ Real.cos 0.087 < Real.cos (rayAngle LidarSensor.default i) := by
      rw [rayAngle_default]
      exact not_lt.mpr hlt.le
    rw [hgeo, if_neg hcos]
    have hne : ¬ i = 0 := by omega
    simp [rayAngle_default, hne]

/-- C6 witness: the ray at angle `0` of Scenario A hits at distance `3`. -/
theorem C6_scenario_a_witness :
    (0 : ℕ) < 36 ∧
    (sweepResults LidarSensor.default originPose [⟨3, 0, 0⟩] (fun _ => 0))[0]? =
      some (((0 : ℕ) : ℝ) * (2 * Real.pi / 36), 3, true) := by
  refine ⟨by norm_num, ?_⟩
  have hc := C6_scenario_a 0 (by norm_num) (fun _ => 0)
  simpa using hc

/-- C7: with `noise_stddev = 0` the sweep is a deterministic function of the
pose, the obstacle list and the configuration — the drawn noise samples are
irrelevant, so repeated sweeps produce identical `scan_results` and
identical `LaserScan` messages. -/
theorem C7_deterministic (s : LidarSensor) (h : s.noise_stddev = 0) (pose : Pose)
    (obstacles : List Vec3) (noise1 noise2 : ℕ → ℝ) :
    sweepResults s pose obstacles noise1 = sweepResults s pose obstacles noise2 ∧
    sweepMessage s pose obstacles noise1 = sweepMessage s pose obstacles noise2 := by
  have hfun : rayResult s pose obstacles noise1 = rayResult s pose obstacles noise2 :=
    funext fun i => by simp [rayResult, h]
  exact ⟨by simp only [sweepResults, hfun], by simp only [sweepMessage, hfun]⟩

/-- C7 witness: the default sensor is noise-free, so two sweeps of Scenario A
with different random draws agree. -/
theorem C7_deterministic_witness :
    LidarSensor.default.noise_stddev = 0 ∧
    sweepResults LidarSensor.default originPose [⟨3, 0, 0⟩] (fun _ => 0) =
      sweepResults LidarSensor.default originPose [⟨3, 0, 0⟩] (fun _ => 1) :=
  ⟨rfl, (C7_deterministic LidarSensor.default rfl originPose [⟨3, 0, 0⟩] _ _).1⟩

/-- C8: per ray, the hit flag is exactly the geometric outcome of the
obstacle loop (and hence independent of the noise draw); a miss keeps its
distance exactly at `range_max` irrespective of noise; and a hit's recorded
distance, when `noise_stddev > 0`, is exactly the geometric distance plus
the drawn Gaussian sample — no clamping back into `[range_min, range_max]`
is applied — while with `noise_stddev ≤ 0` it is the geometric distance. -/
theorem C8_noise_only_on_hits (s : LidarSensor) (pose : Pose) (obstacles : List Vec3)
    (noise : ℕ → ℝ) (i : ℕ) (a d : ℝ) (hit : Bool)
    (h : (sweepResults s pose obstacles noise)[i]? = some (a, d, hit)) :
    hit = (rayGeo s pose obstacles i).2 ∧
    (hit = false → d = s.range_max) ∧
    (hit = true → 0 < s.noise_stddev → d = (rayGeo s pose obstacles i).1 + noise i) ∧
    (hit = true → s.noise_stddev ≤ 0 → d = (rayGeo s pose obstacles i).1) := by
  obtain ⟨hi, hr⟩ := sweepResults_getElem h
  simp only [rayResult, Prod.mk.injEq] at hr
  obtain ⟨-, hd, hh⟩ := hr
  refine ⟨hh.symm, ?_, ?_, ?_⟩
  · intro hf
    rw [hf] at hh
    rw [← hd, if_neg (by simp [hh])]
    have hm := scanRay_miss s pose.translation (rayDir s pose i) obstacles
      (by simpa [rayGeo] using hh)
    simpa [rayGeo] using hm
  · intro ht hpos
    rw [← hd, if_pos ⟨hh.trans ht, hpos⟩]
  · intro ht hnonpos
    rw [← hd, if_neg (by rintro ⟨-, hlt⟩; exact absurd hlt (not_lt.mpr hnonpos))]

/-- C8 witness: the miss of a one-ray, zero-obstacle sweep has its hit flag
equal to the geometric outcome. -/
theorem C8_noise_only_on_hits_witness :
    (sweepResults { LidarSensor.default with rays_per_scan := 1 } originPose []
        (fun _ => 0))[0]? = some (0, 12, false) ∧
    (false : Bool) =
      (rayGeo { LidarSensor.default with rays_per_scan := 1 } originPose [] 0).2 :=
  ⟨empty_scan_entry,
    (C8_noise_only_on_hits _ _ _ _ 0 0 12 false empty_scan_entry).1⟩

/-- C9: the scan scheduler accumulates each tick's `dt` and fires exactly
once each time the accumulated time reaches the period `1 / scan_rate_hz`,
then resets: over any nonnegative tick deltas summing to one period, the
timer fires exactly once and ends with an empty accumulator, however the
deltas are sliced. -/
theorem C9_scheduler (r : ℝ) (hr : 0 < r) (dts : List ℝ)
    (hnn : ∀ x ∈ dts, 0 ≤ x) (hsum : dts.sum = 1 / r) :
    RepeatingTimer.run ⟨1 / r, 0⟩ dts = (⟨1 / r, 0⟩, 1) := by
  have hd : 0 < 1 / r := by positivity
  exact run_one_fire (1 / r) hd dts 0 le_rfl hd hnn (by rw [zero_add]; exact hsum)

/-- C9 witness: Scenario E — with the default `scan_rate = 10` the timer
fires exactly once per `0.1 s`, whether delivered as ten `0.01 s` ticks or
as one `0.1 s` tick. -/
theorem C9_scheduler_witness :
    LidarSensor.default.scan_timer = (⟨1 / 10, 0⟩ : RepeatingTimer) ∧
    RepeatingTimer.run LidarSensor.default.scan_timer (List.replicate 10 0.01) =
      (⟨1 / 10, 0⟩, 1) ∧
    RepeatingTimer.run LidarSensor.default.scan_timer [0.1] = (⟨1 / 10, 0⟩, 1) := by
  have ht : LidarSensor.default.scan_timer = (⟨1 / 10, 0⟩ : RepeatingTimer) := rfl
  refine ⟨ht, ?_, ?_⟩
  · rw [ht]
    exact C9_scheduler 10 (by norm_num) _
      (by intro x hx; rw [List.eq_of_mem_replicate hx]; norm_num)
      (by rw [List.sum_replicate]; norm_num)
  · rw [ht]
    exact C9_scheduler 10 (by norm_num) _
      (by intro x hx; rw [List.mem_singleton.mp hx]; norm_num)
      (by norm_num [List.sum_cons, List.sum_nil])

/-- C10: an obstacle at distance exactly `range_max` never registers on any
ray — the per-ray accumulator starts at `range_max` and only a strictly
smaller distance is recorded, so dropping such an obstacle changes nothing —
and consequently, in a noise-free sweep every entry with `hit = true` has a
distance `d` with `range_min ≤ d < range_max`. -/
theorem C10_strict_at_range_max :
    (∀ (s : LidarSensor) (p dir o : Vec3), Vec3.length (o - p) = s.range_max →
        ∀ (l1 l2 : List Vec3),
          scanRay s p dir (l1 ++ o :: l2) = scanRay s p dir (l1 ++ l2)) ∧
    (∀ (s : LidarSensor) (pose : Pose) (obstacles : List Vec3) (noise : ℕ → ℝ)
        (i : ℕ) (a d : ℝ) (hit : Bool), s.noise_stddev = 0 →
        (sweepResults s pose obstacles noise)[i]? = some (a, d, hit) → hit = true →
        s.range_min ≤ d ∧ d < s.range_max) := by
  constructor
  · intro s p dir o ho l1 l2
    refine scanRay_drop s p dir l1 l2 o ?_
    intro acc hacc
    rcases scanStep_cases s p dir acc o with hc | hc
    · exact hc
    · exfalso
      have hlt := hc.2.1
      rw [ho] at hlt
      exact absurd hacc (not_le.mpr hlt)
  · intro s pose obstacles noise i a d hit h0 h hhit
    obtain ⟨hi, hr⟩ := sweepResults_getElem h
    simp only [rayResult, Prod.mk.injEq] at hr
    obtain ⟨-, hd, hh⟩ := hr
    have hcond : ¬((rayGeo s pose obstacles i).2 = true ∧ 0 < s.noise_stddev) := by
      rintro ⟨-, hlt⟩
      rw [h0] at hlt
      exact lt_irrefl 0 hlt
    rw [if_neg hcond] at hd
    have hfound : (List.foldl (scanStep s pose.translation (rayDir s pose i))
        (s.range_max, false) obstacles).2 = true := by
      have hg : (rayGeo s pose obstacles i).2 = true := hh.trans hhit
      simpa [rayGeo, scanRay] using hg
    have hinv := (foldl_scanStep_inv s pose.translation (rayDir s pose i) obstacles
      (s.range_max, false) le_rfl (by intro hfalse; simp at hfalse)).2 hfound
    rw [← hd]
    simpa [rayGeo, scanRay] using hinv

/-- C10 witness: with the default configuration, an obstacle at `(12,0,0)` —
distance exactly `range_max` from the origin — can be dropped from the
obstacle list without changing the ray's outcome. -/
theorem C10_strict_at_range_max_witness :
    Vec3.length ((⟨12, 0, 0⟩ : Vec3) - Vec3.zero) = LidarSensor.default.range_max ∧
    scanRay LidarSensor.default Vec3.zero ⟨1, 0, 0⟩ [⟨12, 0, 0⟩] =
      scanRay LidarSensor.default Vec3.zero ⟨1, 0, 0⟩ [] := by
  have hlen : Vec3.length ((⟨12, 0, 0⟩ : Vec3) - Vec3.zero) =
      LidarSensor.default.range_max := by
    rw [show LidarSensor.default.range_max = 12 from rfl]
    simp only [Vec3.sub_def, Vec3.zero, Vec3.length, Vec3.dot]
    exact sqrt_eval (by norm_num) (by norm_num)
  exact ⟨hlen, C10_strict_at_range_max.1 LidarSensor.default Vec3.zero ⟨1, 0, 0⟩
    ⟨12, 0, 0⟩ hlen [] []⟩
